import Mathlib

/-!
Verification of the bulk Excel/CSV reload pipeline of the Teju training-tracking
backend (src/backend/app/excel_loader.py).

The embedding models cell values as optional strings: a cell is either absent or
holds a Python value whose string content is what the loader inspects. `none`
stands for a missing key or a Python `None`/NaN cell; `some s` stands for the
string `s`. Numeric and datetime cells are outside the model; the one place the
loader parses a date (`pd.to_datetime`), the date is represented by its source
text, which no claim inspects. Python string operations (`strip`, `lower`,
`split`, `in`) are modeled character-exactly over ASCII: `strip` removes the
whitespace characters space/tab/CR/LF, `lower` lowercases the basic latin
letters (which is what `Char.toLower` implements).
-/

/-! ## Python string primitives, modeled on `List Char` so that every
operation is structurally recursive and kernel-computable. -/

/-- Python `str.strip()`: drop leading and trailing whitespace characters. -/
def stripChars (l : List Char) : List Char :=
  ((l.dropWhile Char.isWhitespace).reverse.dropWhile Char.isWhitespace).reverse

/-- Python `str.strip()` on a `String`. -/
def pyStrip (s : String) : String := ⟨stripChars s.data⟩

/-- Python `str.lower()` (ASCII model; `Char.toLower` lowercases A–Z). -/
def pyLower (s : String) : String := ⟨s.data.map Char.toLower⟩

/-- Python `len` of a string: number of characters. -/
def pyLen (s : String) : Nat := s.data.length

/-- Split a character list at every occurrence of `sep`, keeping empty
segments, exactly like Python `str.split(sep)` for a one-character separator. -/
def splitOnChar (sep : Char) : List Char → List (List Char)
  | [] => [[]]
  | c :: cs =>
    let r := splitOnChar sep cs
    if c = sep then [] :: r
    else (c :: r.headD []) :: r.tail

/-- Python `str.split(sep)` for a one-character separator. -/
def pySplit (sep : Char) (s : String) : List String :=
  (splitOnChar sep s.data).map (fun l => ⟨l⟩)

/-- Split a character list at every character satisfying `p`, keeping empty
segments. -/
def splitIfChar (p : Char → Bool) : List Char → List (List Char)
  | [] => [[]]
  | c :: cs =>
    let r := splitIfChar p cs
    if p c then [] :: r
    else (c :: r.headD []) :: r.tail

/-- Python `str.split()` with no argument: split on whitespace runs and drop
empty tokens. -/
def pySplitWs (s : String) : List String :=
  ((splitIfChar Char.isWhitespace s.data).filter (fun l => l ≠ [])).map (fun l => ⟨l⟩)

/-- Python `c in s` for a one-character needle. -/
def charElem (c : Char) (s : String) : Bool := s.data.contains c

/-- Is `a` a contiguous infix of `b`? (Python `a in b` for strings.) -/
def listInfix (a : List Char) : List Char → Bool
  | [] => a.isEmpty
  | c :: cs => a.isPrefixOf (c :: cs) || listInfix a cs

/-- Python substring containment `a in b`. -/
def pySubstr (a b : String) : Bool := listInfix a.data b.data

/-! ## Header normalization (`clean_headers`, excel_loader.py lines 34–55).

The pandas chain is
`.str.strip() .str.lower() .str.replace(" ", "_") .str.replace("/", "_")
 .str.replace(",", "_") .str.replace("*", "", regex=False)`,
applied to one column name at a time. -/

/-- One `str.replace(old, new)` step for one-character patterns. -/
def pyReplaceChar (old new : Char) (s : String) : String :=
  ⟨s.data.map (fun c => if c = old then new else c)⟩

/-- `str.replace("*", "", regex=False)`: delete every asterisk. -/
def pyRemoveStar (s : String) : String :=
  ⟨s.data.filter (fun c => c != '*')⟩

/-- `clean_headers` applied to a single raw header string: strip, lowercase,
replace space/slash/comma with underscore, remove asterisks — in the order of
the pandas chain in the source. -/
def clean_header (s : String) : String :=
  pyRemoveStar (pyReplaceChar ',' '_' (pyReplaceChar '/' '_'
    (pyReplaceChar ' ' '_' (pyLower (pyStrip s)))))

/-- The per-character effect of the lowercase-and-replace middle of the
`clean_headers` chain: lowercase, then space, slash and comma each become an
underscore. -/
def headerCharMap (c : Char) : Char :=
  if Char.toLower c = ' ' then '_'
  else if Char.toLower c = '/' then '_'
  else if Char.toLower c = ',' then '_'
  else Char.toLower c

/-! ## Flexible column matching (`find_column_flexible`, lines 58–86).

A row is an association list from (already header-normalized) column names to
cell values; Python dict keys are unique, and insertion order is the list
order. The value type is generic: the loader stores arbitrary cell values. -/

/-- Python `row_dict.get(name)` restricted to present keys: the value of the
first binding of `name`. -/
def rowGet {α : Type} (row : List (String × α)) (name : String) : Option α :=
  row.findSome? (fun kv => if kv.1 = name then some kv.2 else none)

/-- The original key chosen by the dict comprehension
`row_keys_lower = \x7bk.lower(): k for k in row_dict.keys()\x7d` for a given
lowercased name: the comprehension lets the LAST key with that lowercase win. -/
def lastKeyWithLower {α : Type} (row : List (String × α)) (nameLower : String) :
    Option String :=
  ((row.map Prod.fst).filter (fun k => pyLower k = nameLower)).getLast?

/-- The tier-3 guard of `find_column_flexible`, exactly as the source writes
it: a substring match in either direction is accepted when
`len(name) > 3 or (len(name) <= 3 and name_lower == key_lower)`. -/
def partialMatchGuard (name key : String) : Bool :=
  (pySubstr (pyLower name) (pyLower key) || pySubstr (pyLower key) (pyLower name)) &&
    (decide (3 < pyLen name) ||
      (decide (pyLen name ≤ 3) && (pyLower name == pyLower key)))

/-- `find_column_flexible(row_dict, possible_names)` (lines 58–86): exact
match in alias order, then case-insensitive exact match in alias order, then
partial/substring match guarded against short aliases; `none` when nothing
matches. -/
def find_column_flexible {α : Type} (row : List (String × α))
    (possibleNames : List String) : Option α :=
  match possibleNames.findSome? (fun name => rowGet row name) with
  | some v => some v
  | none =>
    match possibleNames.findSome? (fun name =>
        match lastKeyWithLower row (pyLower name) with
        | some k => rowGet row k
        | none => none) with
    | some v => some v
    | none =>
      possibleNames.findSome? (fun name =>
        row.findSome? (fun kv =>
          if partialMatchGuard name kv.1 then some kv.2 else none))

/-- The spec-side description of the tier-3 guard (§4.2): substring match in
either direction, except that an alias of at most 3 characters matches only
when it is a case-insensitive exact match. Written from the words of the
specification, for comparison with `partialMatchGuard`. -/
def partialMatchGuardSpec (name key : String) : Bool :=
  if pyLen name ≤ 3 then pyLower name == pyLower key
  else pySubstr (pyLower name) (pyLower key) || pySubstr (pyLower key) (pyLower name)

/-- The resolver as the specification describes it (§4.2): the same three
tiers, with the tier-3 guard taken from the words of the spec. -/
def findColumnFlexibleSpec {α : Type} (row : List (String × α))
    (possibleNames : List String) : Option α :=
  match possibleNames.findSome? (fun name => rowGet row name) with
  | some v => some v
  | none =>
    match possibleNames.findSome? (fun name =>
        match lastKeyWithLower row (pyLower name) with
        | some k => rowGet row k
        | none => none) with
    | some v => some v
    | none =>
      possibleNames.findSome? (fun name =>
        row.findSome? (fun kv =>
          if partialMatchGuardSpec name kv.1 then some kv.2 else none))

/-! ## Cell values and Python truthiness -/

/-- A sheet row: header-normalized column names paired with cell values
(`none` = missing/NaN/None). -/
abbrev Row : Type := List (String × Option String)

/-- Python truthiness of a cell value: `None` and the empty string are falsy. -/
def truthy : Option String → Bool
  | none => false
  | some s => s != ""

/-- Python `a or b` on cell values: `b` when `a` is falsy. -/
def pyOr (a b : Option String) : Option String :=
  if truthy a then a else b

/-- `row.get(name)` flattened to the value level: a missing key and a `None`
value are both falsy `None` to the loader. -/
def rowGetV (row : Row) (name : String) : Option String :=
  match rowGet row name with
  | some v => v
  | none => none

/-- `find_column_flexible` flattened to the value level. -/
def fcfV (row : Row) (names : List String) : Option String :=
  match find_column_flexible row names with
  | some v => v
  | none => none

/-- The per-field cleaning step of the trainer loop (lines 268–275):
`if val and isinstance(val, str): val = val.strip()` — strip only truthy
strings. -/
def cleanVal : Option String → Option String
  | none => none
  | some s => if s != "" then some (pyStrip s) else some s

/-- The cleaning step of the training loop (lines 405–418): truthy strings are
stripped, and any other non-`None` value is `str(...)` -converted and
stripped; in the string model both branches strip. -/
def stripVal : Option String → Option String
  | none => none
  | some s => some (pyStrip s)

/-- `convert_to_string_safe` (lines 89–103): `None`/NaN stays `None`,
otherwise convert to string, strip, and map the empty result to `None`. -/
def convert_to_string_safe (v : Option String) : Option String :=
  match v with
  | none => none
  | some s => if pyStrip s = "" then none else some (pyStrip s)

/-- The direct-access loop used for trainer name and email in the training
sheet (lines 371–374, 385–388): the first listed column that is present with a
truthy value. -/
def directFirst (row : Row) (names : List String) : Option String :=
  names.findSome? (fun n =>
    match rowGetV row n with
    | some s => if s != "" then some s else none
    | none => none)

/-- `Option.getD` under the name the extraction uses. -/
def getStr (v : Option String) : String := v.getD ""

/-! ## Trainers Details sheet (lines 237–310) -/

/-- One row of the `trainers` destination table. -/
structure TrainerRec where
  skill : String
  competency : String
  trainer_name : String
  expertise_level : String
deriving DecidableEq, Repr

/-- The alias list for the correctly spelled trainer-name variants
(line 264). -/
def trainerNameAliases : List String :=
  ["trainer_name", "trainername", "trainer name", "trainer", "name"]

/-- Trainer-name resolution for a Trainers Details row (lines 261–280): the
misspelled alias `copmetency` is consulted first, then the correctly spelled
aliases, then direct access; the value is stripped, and a falsy result
defaults to `Not Assigned`. -/
def resolveTrainerName (row : Row) : String :=
  let v := cleanVal (pyOr
    (pyOr (fcfV row ["copmetency"]) (fcfV row trainerNameAliases))
    (rowGetV row "trainer_name"))
  if truthy v then getStr v else "Not Assigned"

/-- Processing of one Trainers Details row (lines 255–308): resolve the four
fields, clean them, default the trainer name, and accept the row exactly when
skill, competency and expertise level are all truthy. -/
def processTrainerRow (row : Row) : Option TrainerRec :=
  let skill_val := cleanVal (pyOr (fcfV row ["skill"]) (rowGetV row "skill"))
  let competency_val := cleanVal (pyOr (fcfV row ["competency", "competence"])
    (rowGetV row "competency"))
  let expertise_level_val := cleanVal (pyOr
    (fcfV row ["expertise_level", "expertiselevel", "expertise level", "expertise", "level"])
    (rowGetV row "expertise_level"))
  if truthy skill_val && truthy competency_val && truthy expertise_level_val then
    some ⟨getStr skill_val, getStr competency_val, resolveTrainerName row,
      getStr expertise_level_val⟩
  else none

/-- The Trainers Details loop: every row either appends exactly one record or
bumps the skip counter (`skipped_count`), in row order. -/
def processTrainersSheet : List Row → List TrainerRec × Nat
  | [] => ([], 0)
  | row :: rest =>
    let r := processTrainersSheet rest
    match processTrainerRow row with
    | some rec => (rec :: r.1, r.2)
    | none => (r.1, r.2 + 1)

/-! ## Training Details sheet: resolution (lines 355–477) and fan-out
(lines 479–548) -/

/-- One row of the `training_details` destination table, with the fields in
the order of the `TrainingDetail(...)` constructor call (lines 526–545). -/
structure TrainingRec where
  division : Option String
  department : Option String
  competency : Option String
  skill : Option String
  training_name : String
  training_topics : Option String
  prerequisites : Option String
  skill_category : Option String
  trainer_name : String
  email : Option String
  training_date : Option String
  duration : Option String
  seats : Option String
  time : Option String
  training_type : Option String
  assessment_details : Option String
deriving DecidableEq, Repr

/-- The shared per-row metadata of one accepted Training Details row, after
field resolution and cleaning but before the trainer fan-out. -/
structure ResolvedTraining where
  division : Option String
  department : Option String
  competency : Option String
  skill : Option String
  training_name : String
  training_topics : Option String
  prerequisites : Option String
  skill_category : Option String
  trainer_name_val : Option String
  email_val : Option String
  training_date : Option String
  duration : Option String
  seats : Option String
  time : Option String
  training_type : Option String
  assessment_details : Option String
deriving DecidableEq, Repr

/-- Trainer splitting (lines 481–486): `str(value).strip()` when truthy; when
the whole string is empty or reads `nan`/`none`, substitute the sentinel list;
otherwise split on commas, strip each piece, and drop pieces that are empty or
read `nan`. -/
def splitTrainers (v : Option String) : List String :=
  let s := match v with
    | none => ""
    | some t => if t != "" then pyStrip t else ""
  if s != "" && pyLower s != "nan" && pyLower s != "none" then
    ((pySplit ',' s).map pyStrip).filter
      (fun t => t != "" && pyLower t != "nan")
  else ["Not Assigned"]

/-- The trainer-splitting step as the specification words it (§4.4 step 1 and
claim C4): split on comma first, else newline, else treat as a single value;
trim each piece; drop empty, `nan` and `none` tokens; substitute the sentinel
when the RESULTING LIST is empty. Written from the words of the spec, for
comparison with `splitTrainers`. -/
def splitTrainersSpec (v : Option String) : List String :=
  let s := pyStrip (getStr v)
  let tokens :=
    if charElem ',' s then pySplit ',' s
    else if charElem '\n' s then pySplit '\n' s
    else [s]
  let cleaned := (tokens.map pyStrip).filter
    (fun t => t != "" && pyLower t != "nan" && pyLower t != "none")
  if cleaned = [] then ["Not Assigned"] else cleaned

/-- The amended description of trainer splitting: comma is the only separator;
pieces are stripped; empty and `nan` pieces are dropped (`none` pieces are
kept); the sentinel is substituted only when the whole resolved value is
missing, empty, `nan` or `none` — a list emptied by piece filtering stays
empty. -/
def splitTrainersAmended (v : Option String) : List String :=
  match v with
  | none => ["Not Assigned"]
  | some t =>
    let s := if t = "" then "" else pyStrip t
    if s = "" || pyLower s = "nan" || pyLower s = "none" then ["Not Assigned"]
    else ((pySplit ',' s).map pyStrip).filter
      (fun x => x != "" && pyLower x != "nan")

/-- Email splitting (lines 489–504): nothing for a falsy value; strip; nothing
when the whole string reads `nan`/`none`; split on comma if one is present,
else newline, else whitespace; keep stripped tokens that are non-empty,
contain `@`, and do not read `nan`. -/
def splitEmails (v : Option String) : List String :=
  match v with
  | none => []
  | some e0 =>
    if e0 != "" then
      let s := pyStrip e0
      if s != "" && pyLower s != "nan" && pyLower s != "none" then
        let keep := fun (t : String) =>
          t != "" && charElem '@' t && pyLower t != "nan"
        if charElem ',' s then ((pySplit ',' s).map pyStrip).filter keep
        else if charElem '\n' s then ((pySplit '\n' s).map pyStrip).filter keep
        else (pySplitWs s).map pyStrip |>.filter keep
      else []
    else []

/-- The email paired with trainer number `idx` (lines 516–522): email `idx`
positionally; a single email is reused for every trainer; otherwise no
email. -/
def assignEmail (emails : List String) (idx : Nat) : Option String :=
  if idx < emails.length then emails.get? idx
  else if emails.length = 1 then emails.get? 0
  else none

/-- One emitted `TrainingDetail` (lines 526–545): the trainer name and email
of this fan-out position, every other field copied verbatim from the resolved
row. -/
def mkTrainingRec (r : ResolvedTraining) (tn : String) (em : Option String) :
    TrainingRec :=
  ⟨r.division, r.department, r.competency, r.skill, r.training_name,
    r.training_topics, r.prerequisites, r.skill_category, tn, em,
    r.training_date, r.duration, r.seats, r.time, r.training_type,
    r.assessment_details⟩

/-- The `for idx, trainer_name in enumerate(trainer_names)` loop
(lines 514–545), with the running index made explicit. -/
def expandTrainingAux (r : ResolvedTraining) (emails : List String) :
    Nat → List String → List TrainingRec
  | _, [] => []
  | idx, t :: ts =>
    mkTrainingRec r t (assignEmail emails idx) :: expandTrainingAux r emails (idx + 1) ts

/-- The fan-out expander: one record per parsed trainer name, emails assigned
by `assignEmail`. -/
def expandTraining (r : ResolvedTraining) : List TrainingRec :=
  expandTrainingAux r (splitEmails r.email_val) 0 (splitTrainers r.trainer_name_val)

/-- The alias list used by the flexible fallback for the training-sheet
trainer name (lines 378–380). -/
def trainingTrainerAliases : List String :=
  ["trainer_name", "trainer", "trainername", "trainer name", "name"]

/-- The email alias list (lines 385 and 392–394). -/
def emailAliases : List String :=
  ["email_id", "emailid", "email", "email_address", "email id"]

/-- Date conversion (lines 435–439 and 644–647): `pd.to_datetime(v).date()`
for a truthy value, else `None`. Calendar parsing itself is outside the string
model, so a parsed date is represented by its source text; no claim inspects
the parsed value. -/
def parseDateModel (v : Option String) : Option String :=
  if truthy v then v else none

/-- `str(v) if pd.notna(v) and v else None` (lines 446 and 452). -/
def strIfTruthy (v : Option String) : Option String :=
  if truthy v then v else none

/-- Field resolution for one Training Details row (lines 357–477): the row is
accepted exactly when the resolved, stripped training name is truthy; all
other fields are resolved with `find_column_flexible` chains (with
`row.get` fallbacks) exactly as in the source. -/
def resolveTrainingRow (row : Row) : Option ResolvedTraining :=
  let training_name_val := stripVal (pyOr
    (fcfV row ["trainingname_program", "training_name_program", "training_name",
      "trainingname", "training name", "program", "training"])
    (rowGetV row "trainingname_program"))
  let trainer_name_val := stripVal (pyOr
    (directFirst row ["trainer_name", "trainername", "trainer", "trainer name"])
    (fcfV row trainingTrainerAliases))
  let email_val := stripVal (pyOr (directFirst row emailAliases) (fcfV row emailAliases))
  if truthy training_name_val then
    let date_val := pyOr (fcfV row ["training_dates", "training_date", "date", "dates"])
      (rowGetV row "training_dates")
    let duration_val := pyOr
      (fcfV row ["duration_(in_hrs)", "duration_in_hrs", "duration",
        "duration_in_hours", "hours"])
      (rowGetV row "duration_(in_hrs)")
    let seats_val := pyOr
      (fcfV row ["no._of_seats", "no_of_seats", "seats", "number_of_seats",
        "numberofseats"])
      (rowGetV row "no._of_seats")
    some
      { division := pyOr (fcfV row ["division"]) (rowGetV row "division")
        department := pyOr (fcfV row ["department"]) (rowGetV row "department")
        competency := pyOr (fcfV row ["competency", "competence"]) (rowGetV row "competency")
        skill := pyOr (fcfV row ["skill"]) (rowGetV row "skill")
        training_name := getStr training_name_val
        training_topics := pyOr
          (fcfV row ["trainingtopics__material", "training_topics_material",
            "training_topics", "trainingtopics", "topics", "material"])
          (rowGetV row "trainingtopics__material")
        prerequisites := pyOr (fcfV row ["perquisites", "prerequisites", "prerequisite"])
          (rowGetV row "perquisites")
        skill_category := pyOr
          (fcfV row ["skill_category_(l1_-_l5)", "skill_category", "skillcategory",
            "category"])
          (rowGetV row "skill_category_(l1_-_l5)")
        trainer_name_val := trainer_name_val
        email_val := email_val
        training_date := parseDateModel date_val
        duration := strIfTruthy duration_val
        seats := strIfTruthy seats_val
        time := pyOr (fcfV row ["time", "training_time"]) (rowGetV row "time")
        training_type := pyOr (fcfV row ["training_type", "trainingtype", "type"])
          (rowGetV row "training_type")
        assessment_details := pyOr
          (fcfV row ["assessment_details", "assessmentdetails", "assessment",
            "assessment_detail"])
          (rowGetV row "assessment_details") }
  else none

/-- The Training Details loop: a rejected row bumps `skipped_training_count`;
an accepted row appends its fan-out expansion. -/
def processTrainingsSheet : List Row → List TrainingRec × Nat
  | [] => ([], 0)
  | row :: rest =>
    let r := processTrainingsSheet rest
    match resolveTrainingRow row with
    | some res => (expandTraining res ++ r.1, r.2)
    | none => (r.1, r.2 + 1)

/-! ## Employee Competency sheet (lines 583–682) -/

/-- One row of the `employee_competency` destination table, fields in the
order of the `EmployeeCompetency(...)` constructor call (lines 657–671). -/
structure CompRec where
  employee_empid : String
  employee_name : Option String
  department : Option String
  division : Option String
  project : Option String
  role_specific_comp : Option String
  destination : Option String
  competency : Option String
  skill : Option String
  current_expertise : Option String
  target_expertise : Option String
  comments : Option String
  target_date : Option String
deriving DecidableEq, Repr

/-- The employee id resolution (lines 588–596): truthy values are converted to
a stripped string (the float-to-int path only concerns numeric cells, which
are outside the string model); falsy values become `None`. -/
def resolveEmpid (row : Row) : Option String :=
  match fcfV row ["employee_id", "employeeid", "empid", "employee_empid"] with
  | some s => if s != "" then some (pyStrip s) else none
  | none => none

/-- Processing of one Employee Competency row (lines 583–680): the row is
accepted exactly when the resolved employee id is truthy; all other fields go
through `convert_to_string_safe`. -/
def processCompetencyRow (row : Row) : Option CompRec :=
  let employee_empid := resolveEmpid row
  match employee_empid with
  | none => none
  | some e =>
    if e = "" then none
    else some
      { employee_empid := e
        employee_name := convert_to_string_safe
          (fcfV row ["employee_name", "employeename", "employee name", "name"])
        department := convert_to_string_safe (fcfV row ["department"])
        division := convert_to_string_safe (fcfV row ["division"])
        project := convert_to_string_safe (fcfV row ["project"])
        role_specific_comp := convert_to_string_safe
          (fcfV row ["role_specific_competency_(mhs)", "role_specific_competency",
            "role_specific_comp", "role specific competency (mhs)"])
        destination := convert_to_string_safe
          (fcfV row ["designation", "destination", "desination"])
        competency := convert_to_string_safe (fcfV row ["competency", "competence"])
        skill := convert_to_string_safe (fcfV row ["skill"])
        current_expertise := convert_to_string_safe
          (fcfV row ["current_expertise_level", "current_expertise",
            "current expertise level", "current expertise"])
        target_expertise := convert_to_string_safe
          (fcfV row ["target_expertise_level", "target_expertise",
            "target expertise level", "target expertise"])
        comments := convert_to_string_safe (fcfV row ["comments", "comment"])
        target_date := parseDateModel (fcfV row ["target_date", "target date"]) }

/-- The Employee Competency loop: accept or skip each row. -/
def processCompetencySheet : List Row → List CompRec × Nat
  | [] => ([], 0)
  | row :: rest =>
    let r := processCompetencySheet rest
    match processCompetencyRow row with
    | some rec => (rec :: r.1, r.2)
    | none => (r.1, r.2 + 1)

/-! ## The transactional reload orchestrator (`load_all_from_excel`,
lines 106–867).

The destination store is modeled by the contents of the three reloaded tables
plus the total row count of the ten dependent tables that the deletion
planner clears first (lines 116–133); the claims only need to compare whole
table contents before and after a run. The transaction model: statements
accumulate in a pending state; `commit` publishes the pending state;
`rollback` (the handler at lines 863–867) discards the pending state and
keeps the last committed one. Two injected booleans stand for the only two
environment-dependent outcomes: whether the sequence-reset block reaches its
own `db.commit()` (line 194), and whether the final `db.commit()` (line 727)
succeeds. -/

/-- The destination store. -/
structure DB where
  trainers : List TrainerRec
  training_details : List TrainingRec
  employee_competency : List CompRec
  dependentRows : Nat
deriving DecidableEq, Repr

/-- The store after the deletion planner has run: every target table and every
dependent table is empty. -/
def clearedDB : DB := ⟨[], [], [], 0⟩

/-- A workbook: named sheets in file order. -/
structure Workbook where
  sheets : List (String × List Row)
deriving DecidableEq, Repr

/-- Look a sheet up by name (`pd.read_excel(..., sheet_name=...)`). -/
def readSheet (wb : Workbook) (name : String) : Option (List Row) :=
  wb.sheets.findSome? (fun s => if s.1 = name then some s.2 else none)

/-- `xl_file.sheet_names`, used in the missing-sheet diagnostics. -/
def sheetNames (wb : Workbook) : List String := wb.sheets.map Prod.fst

/-- The fatal outcomes of a reload run. -/
inductive LoadError where
  | missingSheet (sheet : String) (available : List String)
  | noValidData
  | commitFailed
deriving DecidableEq, Repr

/-- Did the run raise, and with what? -/
inductive LoadResult where
  | success
  | failure (e : LoadError)
deriving DecidableEq, Repr

/-- `load_all_from_excel`: returns the committed store after the run together
with the outcome. Control flow from the source: delete all tables (pending);
the sequence-reset block commits mid-run when it succeeds (line 194),
publishing the deletions; a missing `Trainers Details` or `Training Details`
sheet raises (lines 205–211, 317–323) and the handler rolls back to the last
commit; a missing `Employee Competency` sheet is tolerated (lines 560–567);
when all three record lists are empty the run raises `ValueError`
(lines 713–720); otherwise the final commit publishes the new contents, or,
when it fails, the handler rolls back to the last commit. -/
def load_all_from_excel (wb : Workbook) (seqResetCommitOk finalCommitOk : Bool)
    (db : DB) : DB × LoadResult :=
  let committed := if seqResetCommitOk then clearedDB else db
  match readSheet wb "Trainers Details" with
  | none => (committed, .failure (.missingSheet "Trainers Details" (sheetNames wb)))
  | some trainerRows =>
    match readSheet wb "Training Details" with
    | none => (committed, .failure (.missingSheet "Training Details" (sheetNames wb)))
    | some trainingRows =>
      let tr := processTrainersSheet trainerRows
      let gr := processTrainingsSheet trainingRows
      let cr := match readSheet wb "Employee Competency" with
        | none => ([], 0)
        | some compRows => processCompetencySheet compRows
      if tr.1 = [] ∧ gr.1 = [] ∧ cr.1 = [] then
        (committed, .failure .noValidData)
      else if finalCommitOk then
        (⟨tr.1, gr.1, cr.1, 0⟩, .success)
      else (committed, .failure .commitFailed)

/-- The competency records a run extracts from a workbook (empty when the
sheet is absent). -/
def competencyRecords (wb : Workbook) : List CompRec :=
  match readSheet wb "Employee Competency" with
  | none => []
  | some compRows => (processCompetencySheet compRows).1

/-! ## User provisioning in `load_manager_employee_from_csv`
(lines 904–970).

The user table is modeled as a map from username to the stored password hash.
The bcrypt hash of the fixed default password is an external collaborator
call; its value is irrelevant to every claim and is modeled as a fixed
string. -/

/-- The hash stored for newly provisioned accounts. -/
def defaultPasswordHash : String := "bcrypt$password123"

/-- The user-provisioning step: collect the distinct employee identifiers of
the CSV, query which already exist as usernames, and create a `User` with the
shared default credential for exactly the missing ones. Returns the updated
user table and the list of identifiers that were provisioned. -/
def provisionUsers (csvIds : List String) (users : String → Option String) :
    (String → Option String) × List String :=
  let allUserIds := csvIds.dedup
  let missing := allUserIds.filter (fun u => (users u).isNone)
  (fun u =>
    match users u with
    | some p => some p
    | none => if u ∈ missing then some defaultPasswordHash else none,
   missing)

/-! ## Concrete inputs used by the claim-level theorems -/

/-- A Trainers Details row with all four fields present. -/
def rowTrainerGood : Row :=
  [("skill", some "Python"), ("competency", some "Backend"),
    ("trainer_name", some "Alice"), ("expertise_level", some "L3")]

/-- A Trainers Details row missing its skill (and every other alias of it). -/
def rowTrainerBad : Row :=
  [("competency", some "Backend"), ("trainer_name", some "Alice"),
    ("expertise_level", some "L3")]

/-- A Training Details row whose trainer cell splits to an empty list: both
comma pieces read `nan` and are dropped. -/
def rowTrainingNan : Row :=
  [("trainingname_program", some "Intro"), ("trainer_name", some "nan,nan")]

/-- A store holding data before a reload run. -/
def dbBefore : DB :=
  ⟨[⟨"Java", "Backend", "Bob", "L2"⟩], [], [], 3⟩

/-- A workbook whose three sheets hold one valid trainer row and nothing
else. -/
def wbGood : Workbook :=
  ⟨[("Trainers Details", [rowTrainerGood]), ("Training Details", []),
    ("Employee Competency", [])]⟩

/-- A workbook in which every row of every present sheet is rejected, while
one Training Details row is accepted but fans out to zero records. -/
def wbNanTraining : Workbook :=
  ⟨[("Trainers Details", [rowTrainerBad]), ("Training Details", [rowTrainingNan])]⟩

/-- A workbook with the two mandatory sheets and no Employee Competency
sheet. -/
def wbNoCompetency : Workbook :=
  ⟨[("Trainers Details", [rowTrainerGood]), ("Training Details", [])]⟩

/-- A workbook with empty mandatory sheets (every record list comes out
empty). -/
def wbAllEmpty : Workbook :=
  ⟨[("Trainers Details", []), ("Training Details", [])]⟩

/-- A workbook with no sheets at all. -/
def wbNoSheets : Workbook := ⟨[]⟩

/-- The resolved Training Details row of the fan-out mismatch example:
trainers `Al, Bo, Cy` and emails `a@x.com, b@x.com`. -/
def exFanoutRow : ResolvedTraining :=
  { division := none, department := none, competency := none, skill := none
    training_name := "T", training_topics := none, prerequisites := none
    skill_category := none, trainer_name_val := some "Al, Bo, Cy"
    email_val := some "a@x.com, b@x.com", training_date := none, duration := none
    seats := none, time := none, training_type := none, assessment_details := none }

/-- A resolved Training Details row whose trainer cell is `nan,nan`. -/
def nanFanoutRow : ResolvedTraining :=
  { division := none, department := none, competency := none, skill := none
    training_name := "Intro", training_topics := none, prerequisites := none
    skill_category := none, trainer_name_val := some "nan,nan"
    email_val := none, training_date := none, duration := none
    seats := none, time := none, training_type := none, assessment_details := none }

/-- A user table holding one pre-existing account. -/
def usersBefore : String → Option String :=
  fun u => if u = "1001" then some "oldhash" else none

/-! # Lemmas -/

/-! ## Character facts -/

theorem char_ofNat_toNat (n : Nat) (h : n.isValidChar) : (Char.ofNat n).toNat = n := by
  rw [Char.ofNat, dif_pos h]
  rfl

theorem char_eq_iff_toNat (a b : Char) : a = b ↔ a.toNat = b.toNat :=
  ⟨fun h => h ▸ rfl, fun h => Char.ext (UInt32.toNat.inj h)⟩

theorem toLower_toNat (c : Char) :
    (Char.toLower c).toNat =
      if 65 ≤ c.toNat ∧ c.toNat ≤ 90 then c.toNat + 32 else c.toNat := by
  unfold Char.toLower
  by_cases h : 65 ≤ c.toNat ∧ c.toNat ≤ 90
  · rw [if_pos h, if_pos ⟨h.1, h.2⟩, char_ofNat_toNat]
    left
    omega
  · rw [if_neg h, if_neg]
    intro hc
    exact h ⟨hc.1, hc.2⟩

theorem toLower_idem (c : Char) : Char.toLower (Char.toLower c) = Char.toLower c := by
  have hn := toLower_toNat c
  by_cases h : 65 ≤ c.toNat ∧ c.toNat ≤ 90
  · rw [if_pos h] at hn
    rw [char_eq_iff_toNat, toLower_toNat (Char.toLower c), hn, if_neg (by omega)]
  · rw [if_neg h] at hn
    rw [char_eq_iff_toNat, toLower_toNat (Char.toLower c), hn, if_neg h]

theorem isWhitespace_iff_toNat (c : Char) :
    c.isWhitespace = true ↔ c.toNat = 32 ∨ c.toNat = 9 ∨ c.toNat = 13 ∨ c.toNat = 10 := by
  unfold Char.isWhitespace
  simp only [Bool.or_eq_true, decide_eq_true_eq, char_eq_iff_toNat]
  rw [show (' ').toNat = 32 from rfl, show ('\t').toNat = 9 from rfl,
    show ('\r').toNat = 13 from rfl, show ('\n').toNat = 10 from rfl]
  tauto

theorem toLower_not_ws (c : Char) (h : c.isWhitespace = false) :
    (Char.toLower c).isWhitespace = false := by
  rw [Bool.eq_false_iff] at h ⊢
  intro hw
  apply h
  rw [isWhitespace_iff_toNat] at hw ⊢
  rw [toLower_toNat] at hw
  by_cases hc : 65 ≤ c.toNat ∧ c.toNat ≤ 90
  · rw [if_pos hc] at hw
    omega
  · rwa [if_neg hc] at hw

theorem toLower_eq_star (c : Char) (h : Char.toLower c = '*') : c = '*' := by
  rw [char_eq_iff_toNat] at h ⊢
  rw [toLower_toNat] at h
  rw [show ('*').toNat = 42 from rfl] at h ⊢
  by_cases hc : 65 ≤ c.toNat ∧ c.toNat ≤ 90
  · rw [if_pos hc] at h
    omega
  · rwa [if_neg hc] at h

theorem headerCharMap_cases (c : Char) :
    headerCharMap c = '_' ∨ headerCharMap c = Char.toLower c := by
  unfold headerCharMap
  split_ifs <;> first | (left; rfl) | (right; rfl)

theorem headerCharMap_toLower (c : Char) :
    headerCharMap (Char.toLower c) = headerCharMap c := by
  unfold headerCharMap
  rw [toLower_idem]

theorem headerCharMap_idem (c : Char) :
    headerCharMap (headerCharMap c) = headerCharMap c := by
  rcases headerCharMap_cases c with h | h
  · rw [h]
    decide
  · rw [h, headerCharMap_toLower]
    exact h

theorem headerCharMap_not_ws (c : Char) (h : c.isWhitespace = false) :
    (headerCharMap c).isWhitespace = false := by
  rcases headerCharMap_cases c with hc | hc
  · rw [hc]
    decide
  · rw [hc]
    exact toLower_not_ws c h

theorem headerCharMap_eq_star (c : Char) (h : headerCharMap c = '*') : c = '*' := by
  rcases headerCharMap_cases c with hc | hc
  · rw [hc] at h
    exact absurd h (by decide)
  · rw [hc] at h
    exact toLower_eq_star c h

theorem headerCharMap_unfold (c : Char) :
    (fun x => if x = ',' then '_' else x)
      ((fun x => if x = '/' then '_' else x)
        ((fun x => if x = ' ' then '_' else x) (Char.toLower c))) = headerCharMap c := by
  unfold headerCharMap
  by_cases h1 : Char.toLower c = ' '
  · simp [h1]
  · by_cases h2 : Char.toLower c = '/'
    · simp [h1, h2]
    · by_cases h3 : Char.toLower c = ','
      · simp [h1, h2, h3]
      · simp [h1, h2, h3]

/-! ## dropWhile and strip facts -/

theorem dropWhile_head_not (p : Char → Bool) :
    ∀ (l : List Char) (c : Char), (l.dropWhile p).head? = some c → p c = false := by
  intro l
  induction l with
  | nil => intro c h; simp [List.dropWhile] at h
  | cons a as ih =>
    intro c h
    rw [List.dropWhile_cons] at h
    by_cases hp : p a
    · rw [if_pos hp] at h
      exact ih c h
    · rw [if_neg hp] at h
      simp only [List.head?_cons, Option.some.injEq] at h
      rw [← h]
      exact Bool.not_eq_true _ |>.mp hp

theorem dropWhile_eq_self (p : Char → Bool) (l : List Char)
    (h : ∀ c, l.head? = some c → p c = false) : l.dropWhile p = l := by
  cases l with
  | nil => rfl
  | cons a as =>
    rw [List.dropWhile_cons, if_neg]
    rw [h a rfl]
    simp

theorem dropWhile_getLast (p : Char → Bool) :
    ∀ l : List Char, l.dropWhile p = [] ∨ (l.dropWhile p).getLast? = l.getLast? := by
  intro l
  induction l with
  | nil => left; rfl
  | cons a as ih =>
    rw [List.dropWhile_cons]
    by_cases hp : p a
    · rw [if_pos hp]
      by_cases hnil : as.dropWhile p = []
      · left; exact hnil
      · right
        rcases ih with h | h
        · exact absurd h hnil
        · rw [h]
          cases as with
          | nil => exact absurd rfl hnil
          | cons b bs => rw [List.getLast?_cons_cons]
    · rw [if_neg hp]
      right
      rfl

theorem mem_of_mem_stripChars (l : List Char) (c : Char) (h : c ∈ stripChars l) : c ∈ l := by
  unfold stripChars at h
  rw [List.mem_reverse] at h
  have h2 := (List.dropWhile_sublist _).mem h
  rw [List.mem_reverse] at h2
  exact (List.dropWhile_sublist _).mem h2

theorem stripChars_head_not_ws (l : List Char) (c : Char)
    (h : (stripChars l).head? = some c) : c.isWhitespace = false := by
  unfold stripChars at h
  rw [List.head?_reverse] at h
  rcases dropWhile_getLast Char.isWhitespace (l.dropWhile Char.isWhitespace).reverse with
    hnil | hlast
  · rw [hnil] at h
    simp at h
  · rw [hlast, List.getLast?_reverse] at h
    exact dropWhile_head_not Char.isWhitespace l c h

theorem stripChars_getLast_not_ws (l : List Char) (c : Char)
    (h : (stripChars l).getLast? = some c) : c.isWhitespace = false := by
  unfold stripChars at h
  rw [List.getLast?_reverse] at h
  exact dropWhile_head_not Char.isWhitespace _ c h

theorem stripChars_eq_self (l : List Char)
    (h1 : ∀ c, l.head? = some c → c.isWhitespace = false)
    (h2 : ∀ c, l.getLast? = some c → c.isWhitespace = false) : stripChars l = l := by
  unfold stripChars
  rw [dropWhile_eq_self _ _ h1]
  rw [dropWhile_eq_self _ _ (fun c hc => h2 c (by rwa [List.head?_reverse] at hc))]
  exact List.reverse_reverse l

theorem stripChars_idem (l : List Char) : stripChars (stripChars l) = stripChars l :=
  stripChars_eq_self _ (stripChars_head_not_ws l) (stripChars_getLast_not_ws l)

/-! ## clean_header as a single map-filter pipeline -/

theorem clean_header_data (s : String) :
    (clean_header s).data =
      ((stripChars s.data).map headerCharMap).filter (fun c => c != '*') := by
  have h0 : (clean_header s).data =
      (((((stripChars s.data).map Char.toLower).map
        (fun x => if x = ' ' then '_' else x)).map
        (fun x => if x = '/' then '_' else x)).map
        (fun x => if x = ',' then '_' else x)).filter (fun c => c != '*') := rfl
  rw [h0]
  simp only [List.map_map]
  congr 1
  apply List.map_congr_left
  intro a _
  exact headerCharMap_unfold a

theorem clean_header_no_star (s : String) (c : Char)
    (h : c ∈ (clean_header s).data) : c ≠ '*' := by
  rw [clean_header_data] at h
  have := List.of_mem_filter h
  simpa using this

theorem clean_header_second_pass (s : String)
    (h : ∀ c ∈ stripChars s.data, c ≠ '*') :
    clean_header (clean_header s) = clean_header s := by
  have hstar2 : ∀ c ∈ (stripChars s.data).map headerCharMap, c ≠ '*' := by
    intro c hc hceq
    rcases List.mem_map.mp hc with ⟨a, ha, rfl⟩
    exact h a ha (headerCharMap_eq_star a hceq)
  have hu : (clean_header s).data = (stripChars s.data).map headerCharMap := by
    rw [clean_header_data]
    exact List.filter_eq_self.mpr (fun a ha => by simpa using hstar2 a ha)
  have hstrip : stripChars ((clean_header s).data) = (clean_header s).data := by
    rw [hu]
    apply stripChars_eq_self
    · intro c hc
      rw [List.head?_map] at hc
      cases hh : (stripChars s.data).head? with
      | none => rw [hh] at hc; simp at hc
      | some a =>
        rw [hh] at hc
        simp only [Option.map_some', Option.some.injEq] at hc
        rw [← hc]
        exact headerCharMap_not_ws a (stripChars_head_not_ws _ a hh)
    · intro c hc
      rw [List.getLast?_map] at hc
      cases hh : (stripChars s.data).getLast? with
      | none => rw [hh] at hc; simp at hc
      | some a =>
        rw [hh] at hc
        simp only [Option.map_some', Option.some.injEq] at hc
        rw [← hc]
        exact headerCharMap_not_ws a (stripChars_getLast_not_ws _ a hh)
  have hmap : ((clean_header s).data).map headerCharMap = (clean_header s).data := by
    conv_lhs => rw [hu]
    rw [List.map_map, hu]
    apply List.map_congr_left
    intro a _
    exact headerCharMap_idem a
  have hfilter : ((clean_header s).data).filter (fun c => c != '*') = (clean_header s).data := by
    rw [hu]
    exact List.filter_eq_self.mpr (fun a ha => by simpa using hstar2 a ha)
  apply String.ext
  rw [clean_header_data (clean_header s), hstrip, hmap, hfilter]

/-! # Claim-level theorems -/

/-- C8, counterexample: header normalization is NOT idempotent on every header
string. On `*\ta` the asterisk shields a tab from the initial strip; removing
the asterisk last leaves `\ta`, and a second normalization strips the tab. -/
theorem clean_header_not_idempotent :
    clean_header "*\ta" = "\ta" ∧ clean_header (clean_header "*\ta") = "a" ∧
      clean_header (clean_header "*\ta") ≠ clean_header "*\ta" := by
  decide

/-- C8, amended: header normalization is a pure function of the raw header
string (immediate, as `clean_header` is a function), and it is idempotent on
every header string that contains no asterisk. -/
theorem clean_header_idempotent_without_asterisk (s : String) (h : ('*') ∉ s.data) :
    clean_header (clean_header s) = clean_header s :=
  clean_header_second_pass s
    (fun c hc hceq => h (hceq ▸ mem_of_mem_stripChars s.data c hc))

/-- C8, witness: the no-asterisk idempotence theorem applied to a concrete
messy header. -/
theorem clean_header_idempotent_witness :
    ('*') ∉ (" Skill Level/Area, X ").data ∧
      clean_header (clean_header " Skill Level/Area, X ") =
        clean_header " Skill Level/Area, X " :=
  ⟨by decide, clean_header_idempotent_without_asterisk _ (by decide)⟩

/-- C10: every Trainers Details row is either accepted, appending exactly one
trainer record, or skipped, bumping the skip counter by exactly one — so
accepted records plus skips equal the sheet row count. -/
theorem trainer_rows_accept_or_skip :
    ∀ rows : List Row,
      (processTrainersSheet rows).1.length + (processTrainersSheet rows).2 = rows.length := by
  intro rows
  induction rows with
  | nil => rfl
  | cons row rest ih =>
    simp only [processTrainersSheet]
    cases hr : processTrainerRow row with
    | some rec =>
      simp only [List.length_cons]
      omega
    | none =>
      simp only [List.length_cons]
      omega

/-! ## Resolver facts -/

theorem findSome?_congr {α β : Type} (l : List α) (f g : α → Option β)
    (h : ∀ a, f a = g a) : l.findSome? f = l.findSome? g := by
  induction l with
  | nil => rfl
  | cons a as ih =>
    rw [List.findSome?_cons, List.findSome?_cons, h a]
    cases g a with
    | some b => rfl
    | none => exact ih

theorem isPrefixOf_self (l : List Char) : l.isPrefixOf l = true := by
  induction l with
  | nil => rfl
  | cons c cs ih => simp [List.isPrefixOf, ih]

theorem pySubstr_self (s : String) : pySubstr s s = true := by
  unfold pySubstr
  cases h : s.data with
  | nil => rfl
  | cons c cs =>
    unfold listInfix
    rw [isPrefixOf_self]
    rfl

theorem partialMatchGuard_eq_spec (name key : String) :
    partialMatchGuard name key = partialMatchGuardSpec name key := by
  unfold partialMatchGuard partialMatchGuardSpec
  by_cases h : pyLen name ≤ 3
  · rw [if_pos h]
    have h3 : decide (3 < pyLen name) = false := by simp; omega
    have h4 : decide (pyLen name ≤ 3) = true := by simp [h]
    rw [h3, h4]
    simp only [Bool.false_or, Bool.true_and]
    by_cases he : pyLower name = pyLower key
    · rw [he, pySubstr_self]
      simp
    · have hne : (pyLower name == pyLower key) = false := by
        simp [he]
      rw [hne]
      simp
  · rw [if_neg h]
    have h3 : decide (3 < pyLen name) = true := by simp; omega
    rw [h3]
    simp

/-- C6: `find_column_flexible` realizes exactly the three-tier precedence the
spec describes — exact match in alias order, then case-insensitive exact
match, then substring match in either direction where an alias of at most 3
characters matches only case-insensitively-exactly — returning `none` when no
tier matches; in particular the 3-character alias `fee` does not match the
header `coffee`. -/
theorem find_column_flexible_matches_spec :
    (∀ (α : Type) (row : List (String × α)) (names : List String),
        find_column_flexible row names = findColumnFlexibleSpec row names) ∧
      find_column_flexible [("coffee", "v")] ["fee"] = none := by
  constructor
  · intro α row names
    unfold find_column_flexible findColumnFlexibleSpec
    have h3 : names.findSome? (fun name =>
          row.findSome? (fun kv =>
            if partialMatchGuard name kv.1 then some kv.2 else none)) =
        names.findSome? (fun name =>
          row.findSome? (fun kv =>
            if partialMatchGuardSpec name kv.1 then some kv.2 else none)) := by
      apply findSome?_congr
      intro n
      apply findSome?_congr
      intro kv
      rw [partialMatchGuard_eq_spec]
    rw [h3]
  · decide

/-! ## Fan-out facts -/

theorem expandTrainingAux_length (r : ResolvedTraining) (emails : List String) :
    ∀ (ts : List String) (idx : Nat),
      (expandTrainingAux r emails idx ts).length = ts.length := by
  intro ts
  induction ts with
  | nil => intro idx; rfl
  | cons t ts ih =>
    intro idx
    simp [expandTrainingAux, ih]

theorem expandTrainingAux_get (r : ResolvedTraining) (emails : List String) :
    ∀ (ts : List String) (idx i : Nat),
      (expandTrainingAux r emails idx ts).get? i =
        (ts.get? i).map (fun t => mkTrainingRec r t (assignEmail emails (idx + i))) := by
  intro ts
  induction ts with
  | nil => intro idx i; simp [expandTrainingAux]
  | cons t ts ih =>
    intro idx i
    cases i with
    | zero => simp [expandTrainingAux]
    | succ i =>
      simp only [expandTrainingAux, List.get?_cons_succ]
      rw [ih (idx + 1) i]
      have harith : idx + 1 + i = idx + (i + 1) := by omega
      rw [harith]

/-- C3, counterexample: a Training Details row whose trainer cell is
`nan,nan` is accepted (its training name is truthy) but the fan-out emits ZERO
records, while `max(1, trainer_count)` is at least 1 for every possible
trainer count. -/
theorem training_fanout_zero_records :
    (expandTraining nanFanoutRow).length = 0 ∧
      splitTrainers nanFanoutRow.trainer_name_val = [] ∧
      1 ≤ max 1 ((splitTrainers nanFanoutRow.trainer_name_val).length) := by
  decide

/-- C3, amended: the fan-out expander emits exactly one `TrainingDetail` per
element of the parsed trainer list (so `max(1, trainer_count)` in every case
except a trainer string whose comma pieces are all dropped, which yields zero
records); record `i` carries trainer `i` and, positionally, email `i` while
`i` is below the email count, the single email when exactly one email was
parsed, and no email otherwise; every other field is copied verbatim through
`mkTrainingRec`. The mismatch example `Al, Bo, Cy` with two emails yields
`(Al,a)`, `(Bo,b)`, `(Cy,null)`. -/
theorem training_fanout_characterization :
    (∀ r : ResolvedTraining,
        (expandTraining r).length = (splitTrainers r.trainer_name_val).length ∧
          ∀ i : Nat,
            (expandTraining r).get? i =
              ((splitTrainers r.trainer_name_val).get? i).map
                (fun t => mkTrainingRec r t
                  (if i < (splitEmails r.email_val).length then
                    (splitEmails r.email_val).get? i
                  else if (splitEmails r.email_val).length = 1 then
                    (splitEmails r.email_val).get? 0
                  else none))) ∧
      expandTraining exFanoutRow =
        [mkTrainingRec exFanoutRow "Al" (some "a@x.com"),
          mkTrainingRec exFanoutRow "Bo" (some "b@x.com"),
          mkTrainingRec exFanoutRow "Cy" none] := by
  constructor
  · intro r
    constructor
    · exact expandTrainingAux_length r _ _ 0
    · intro i
      unfold expandTraining
      rw [expandTrainingAux_get r _ _ 0 i]
      simp only [assignEmail, Nat.zero_add]
  · decide

/-- C4, counterexample: trainer splitting does not treat newline as a
separator (`Al\nBo` stays one token where the spec words give two), does not
drop `none` tokens, and does not substitute the sentinel when comma filtering
empties the list. -/
theorem trainer_split_not_as_spec :
    splitTrainers (some "Al\nBo") = ["Al\nBo"] ∧
      splitTrainersSpec (some "Al\nBo") = ["Al", "Bo"] ∧
      splitTrainers (some "Al\nBo") ≠ splitTrainersSpec (some "Al\nBo") ∧
      splitTrainers (some "a, none") ≠ splitTrainersSpec (some "a, none") ∧
      splitTrainers (some "nan,nan") = [] ∧
      splitTrainersSpec (some "nan,nan") = ["Not Assigned"] := by
  decide

/-- C4, amended: the resolved trainer value is split on comma only; each piece
is trimmed; empty and `nan` pieces are dropped (`none` pieces are kept); the
single sentinel `Not Assigned` is substituted only when the whole resolved
value is missing, empty, `nan` or `none` — not when piece filtering empties
the list. -/
theorem trainer_split_amended (v : Option String) :
    splitTrainers v = splitTrainersAmended v := by
  unfold splitTrainers splitTrainersAmended
  cases v with
  | none => rfl
  | some t =>
    by_cases ht : t = ""
    · simp [ht]
    · have hb : (t != "") = true := by simp [ht]
      simp only [hb, if_true, if_neg ht]
      by_cases h1 : pyStrip t = ""
      · simp [h1]
      · by_cases h2 : pyLower (pyStrip t) = "nan"
        · simp [h1, h2]
        · by_cases h3 : pyLower (pyStrip t) = "none"
          · simp [h1, h2, h3]
          · simp [h1, h2, h3]

/-! ## Trainer-name alias priority -/

theorem pyOr_truthy (a b : Option String) (h : truthy a = true) : pyOr a b = a :=
  if_pos h

theorem pyOr_falsy (a b : Option String) (h : truthy a = false) : pyOr a b = b := by
  unfold pyOr
  rw [h]
  simp

/-- C7: in Trainers Details ingestion the trainer name is resolved from the
misspelled alias `copmetency` first: whenever that resolution yields a truthy
value `s`, the resolved trainer name is `s` stripped (or the default when `s`
strips to nothing), independently of the correctly spelled aliases; when the
`copmetency` resolution yields nothing truthy, the correctly spelled alias
chain decides; and a row whose trainer name appears only under `copmetency`
still resolves that name rather than `Not Assigned`. -/
theorem copmetency_alias_priority :
    (∀ (row : Row) (s : String),
        fcfV row ["copmetency"] = some s → s ≠ "" →
          resolveTrainerName row =
            (if pyStrip s = "" then "Not Assigned" else pyStrip s)) ∧
      (∀ row : Row,
        truthy (fcfV row ["copmetency"]) = false →
          resolveTrainerName row =
            (let v := cleanVal (pyOr (fcfV row trainerNameAliases)
              (rowGetV row "trainer_name"))
             if truthy v then getStr v else "Not Assigned")) ∧
      processTrainerRow
          [("copmetency", some "Alice"), ("skill", some "S"),
            ("competency", some "C"), ("expertise_level", some "E")] =
        some ⟨"S", "C", "Alice", "E"⟩ := by
  refine ⟨?_, ?_, by decide⟩
  · intro row s hs hne
    unfold resolveTrainerName
    rw [hs]
    have ht : truthy (some s) = true := by simp [truthy, hne]
    rw [pyOr_truthy _ _ ht, pyOr_truthy _ _ ht]
    have hc : cleanVal (some s) = some (pyStrip s) := by
      simp [cleanVal, hne]
    rw [hc]
    by_cases hp : pyStrip s = ""
    · simp [truthy, hp, getStr]
    · simp [truthy, hp, getStr]
  · intro row hfal
    unfold resolveTrainerName
    rw [pyOr_falsy _ _ hfal]

/-- C7, witness: the priority theorem applied to a row whose only binding is
the misspelled `copmetency` header holding `Alice`. -/
theorem copmetency_alias_priority_witness :
    resolveTrainerName [("copmetency", some "Alice")] =
      (if pyStrip "Alice" = "" then "Not Assigned" else pyStrip "Alice") :=
  copmetency_alias_priority.1 [("copmetency", some "Alice")] "Alice" (by decide) (by decide)

/-! ## CSV user provisioning -/

/-- C9: user provisioning in `load_manager_employee_from_csv` touches only the
missing identifiers: a pre-existing user keeps its stored credential and is
never in the provisioned set; every provisioned identifier was absent and
comes from the CSV; re-running the loader on the same CSV over the updated
user table provisions nothing. -/
theorem csv_user_provisioning_idempotent :
    (∀ (users : String → Option String) (ids : List String) (u p : String),
        users u = some p →
          (provisionUsers ids users).1 u = some p ∧
            u ∉ (provisionUsers ids users).2) ∧
      (∀ (users : String → Option String) (ids : List String) (u : String),
        u ∈ (provisionUsers ids users).2 → users u = none ∧ u ∈ ids) ∧
      (∀ (users : String → Option String) (ids : List String),
        (provisionUsers ids ((provisionUsers ids users).1)).2 = []) := by
  refine ⟨?_, ?_, ?_⟩
  · intro users ids u p h
    constructor
    · simp only [provisionUsers, h]
    · intro hm
      have hmem := List.mem_filter.mp hm
      rw [h] at hmem
      simp at hmem
  · intro users ids u hm
    have hmem := List.mem_filter.mp hm
    constructor
    · simpa [Option.isNone_iff_eq_none] using hmem.2
    · exact List.mem_dedup.mp hmem.1
  · intro users ids
    apply List.filter_eq_nil_iff.mpr
    intro u hu
    simp only [provisionUsers]
    cases hc : users u with
    | some p => simp
    | none =>
      rw [if_pos]
      · simp
      · exact List.mem_filter.mpr ⟨hu, by simp [hc]⟩

/-- C9, witness: the provisioning theorem applied to a user table already
holding account `1001` with credential `oldhash` and a CSV containing ids
`1001` and `1002`. -/
theorem csv_user_provisioning_witness :
    (provisionUsers ["1001", "1002"] usersBefore).1 "1001" = some "oldhash" ∧
      "1001" ∉ (provisionUsers ["1001", "1002"] usersBefore).2 :=
  csv_user_provisioning_idempotent.1 usersBefore ["1001", "1002"] "1001" "oldhash"
    (by decide)

/-! ## Orchestrator-level claims -/

/-- C5, counterexample: a workbook without an `Employee Competency` sheet does
NOT abort — the run succeeds, so absence of that named sheet is not a hard
failure. -/
theorem missing_competency_sheet_tolerated :
    readSheet wbNoCompetency "Employee Competency" = none ∧
      (load_all_from_excel wbNoCompetency true true dbBefore).2 = .success := by
  decide

/-- C5, amended: a missing `Trainers Details` or `Training Details` sheet
aborts the import with an error naming the sheet names found in the workbook,
but a missing `Employee Competency` sheet never does — the loader continues
with zero competency records and no missing-sheet error mentioning it is ever
raised. -/
theorem missing_sheet_behavior (wb : Workbook) (seqOk finOk : Bool) (db : DB) :
    (readSheet wb "Trainers Details" = none →
        (load_all_from_excel wb seqOk finOk db).2 =
          .failure (.missingSheet "Trainers Details" (sheetNames wb))) ∧
      (∀ tRows, readSheet wb "Trainers Details" = some tRows →
        readSheet wb "Training Details" = none →
          (load_all_from_excel wb seqOk finOk db).2 =
            .failure (.missingSheet "Training Details" (sheetNames wb))) ∧
      (∀ avail, (load_all_from_excel wb seqOk finOk db).2 ≠
        .failure (.missingSheet "Employee Competency" avail)) := by
  refine ⟨?_, ?_, ?_⟩
  · intro h
    unfold load_all_from_excel
    rw [h]
  · intro tRows ht hg
    unfold load_all_from_excel
    rw [ht, hg]
  · intro avail
    unfold load_all_from_excel
    cases h1 : readSheet wb "Trainers Details" with
    | none =>
      dsimp only
      intro hc
      simp only [LoadResult.failure.injEq, LoadError.missingSheet.injEq] at hc
      exact absurd hc.1 (by decide)
    | some tRows =>
      cases h2 : readSheet wb "Training Details" with
      | none =>
        dsimp only
        intro hc
        simp only [LoadResult.failure.injEq, LoadError.missingSheet.injEq] at hc
        exact absurd hc.1 (by decide)
      | some gRows =>
        dsimp only
        split_ifs <;> intro hc <;> dsimp only at hc <;>
          first
            | exact LoadResult.noConfusion hc
            | (simp only [LoadResult.failure.injEq] at hc
               exact LoadError.noConfusion hc)

/-- C5, witness: the amended theorem applied to a workbook with no sheets at
all. -/
theorem missing_sheet_behavior_witness :
    (load_all_from_excel wbNoSheets true true dbBefore).2 =
      .failure (.missingSheet "Trainers Details" (sheetNames wbNoSheets)) :=
  (missing_sheet_behavior wbNoSheets true true dbBefore).1 (by decide)

/-- C2, counterexample: a run can accept a Training Details row (its skip
counter stays 0 for a one-row sheet) and still abort with the no-valid-data
error, because the accepted row fans out to zero records — so the abort is not
equivalent to `zero rows accepted`. -/
theorem empty_abort_despite_accepted_row :
    (processTrainingsSheet [rowTrainingNan]).2 = 0 ∧
      ([rowTrainingNan] : List Row).length = 1 ∧
      (load_all_from_excel wbNanTraining true true dbBefore).2 =
        .failure .noValidData := by
  decide

/-- C2, amended: when both mandatory sheets are present, the run aborts with
the no-valid-data error exactly when all three produced RECORD lists are
empty. For the trainers and competency sheets a record is produced per
accepted row, but an accepted Training Details row contributes one record per
parsed trainer, which can be zero. -/
theorem empty_result_abort_iff (wb : Workbook) (seqOk finOk : Bool) (db : DB)
    (tRows gRows : List Row)
    (ht : readSheet wb "Trainers Details" = some tRows)
    (hg : readSheet wb "Training Details" = some gRows) :
    (load_all_from_excel wb seqOk finOk db).2 = .failure .noValidData ↔
      ((processTrainersSheet tRows).1 = [] ∧
        (processTrainingsSheet gRows).1 = [] ∧ competencyRecords wb = []) := by
  unfold load_all_from_excel competencyRecords
  rw [ht, hg]
  dsimp only
  cases hc : readSheet wb "Employee Competency" with
  | none =>
    dsimp only
    by_cases hempty : (processTrainersSheet tRows).1 = [] ∧
        (processTrainingsSheet gRows).1 = [] ∧ ([] : List CompRec) = []
    · rw [if_pos hempty]
      exact iff_of_true rfl hempty
    · rw [if_neg hempty]
      refine iff_of_false ?_ hempty
      by_cases hfin : finOk = true
      · rw [if_pos hfin]
        intro hcon
        have hcon2 : LoadResult.success = LoadResult.failure LoadError.noValidData := hcon
        exact LoadResult.noConfusion hcon2
      · rw [if_neg hfin]
        intro hcon
        have hcon2 : LoadResult.failure LoadError.commitFailed =
          LoadResult.failure LoadError.noValidData := hcon
        simp only [LoadResult.failure.injEq] at hcon2
        exact LoadError.noConfusion hcon2
  | some compRows =>
    dsimp only
    by_cases hempty : (processTrainersSheet tRows).1 = [] ∧
        (processTrainingsSheet gRows).1 = [] ∧ (processCompetencySheet compRows).1 = []
    · rw [if_pos hempty]
      exact iff_of_true rfl hempty
    · rw [if_neg hempty]
      refine iff_of_false ?_ hempty
      by_cases hfin : finOk = true
      · rw [if_pos hfin]
        intro hcon
        have hcon2 : LoadResult.success = LoadResult.failure LoadError.noValidData := hcon
        exact LoadResult.noConfusion hcon2
      · rw [if_neg hfin]
        intro hcon
        have hcon2 : LoadResult.failure LoadError.commitFailed =
          LoadResult.failure LoadError.noValidData := hcon
        simp only [LoadResult.failure.injEq] at hcon2
        exact LoadError.noConfusion hcon2

/-- C2, witness: the abort criterion applied to a workbook whose two mandatory
sheets are present and empty: every record list is empty and the run aborts
with the no-valid-data error. -/
theorem empty_result_abort_iff_witness :
    (load_all_from_excel wbAllEmpty true true dbBefore).2 = .failure .noValidData :=
  (empty_result_abort_iff wbAllEmpty true true dbBefore [] [] (by decide)
    (by decide)).mpr (by decide)

/-- C1 (code bug): with a store holding data, a workbook whose sheets parse
fine, a sequence-reset block that reaches its mid-run commit (the normal
case), and a final commit that raises, the handler rolls back only to that
mid-run commit: the committed store after the run is the CLEARED store, not
the pre-run store — the deletions survive the rollback. -/
theorem mid_run_commit_loses_deletions :
    dbBefore.trainers ≠ [] ∧
      (load_all_from_excel wbGood true false dbBefore).1 = clearedDB ∧
      (load_all_from_excel wbGood true false dbBefore).1 ≠ dbBefore ∧
      (load_all_from_excel wbGood true false dbBefore).2 = .failure .commitFailed := by
  decide
